import Mathlib

/- Shallow embedding of the Zombie-UI cluster monitoring subsystem:
   `src/services/instance-monitor.js` (classes InstanceMonitor, SyncMonitor and
   ConflictDetector) and `src/services/cluster-health.js` (class ClusterHealth).
   JavaScript dates are modelled as ISO strings where they are only carried
   around, and as integer millisecond timestamps where they are compared.
   External collaborators (the CouchDB client, the URL library, the
   environment) appear as explicit function or `Except` parameters. -/

namespace ZombieUI

/-- First-occurrence replacement on character lists: the semantics of
JavaScript `String.prototype.replace` with a plain-string pattern. -/
def replaceFirst (pat repl : List Char) : List Char → List Char
  | [] => if pat.isPrefixOf ([] : List Char) then repl else []
  | c :: rest =>
    if pat.isPrefixOf (c :: rest) then repl ++ (c :: rest).drop pat.length
    else c :: replaceFirst pat repl rest

/-- JavaScript `s.replace(pat, repl)` on strings (first occurrence only). -/
def strReplaceFirst (s pat repl : String) : String :=
  ⟨replaceFirst pat.data repl.data s.data⟩

/-- JavaScript `s.startsWith(p)`. -/
def strStartsWith (s p : String) : Bool := p.data.isPrefixOf s.data

/-- JavaScript `s.endsWith(p)`. -/
def strEndsWith (s p : String) : Bool := p.data.isSuffixOf s.data

/-- Substring containment on character lists. -/
def listIsInfix (p : List Char) : List Char → Bool
  | [] => p.isPrefixOf ([] : List Char)
  | c :: rest => p.isPrefixOf (c :: rest) || listIsInfix p rest

/-- JavaScript `s.includes(p)`. -/
def strIncludes (s p : String) : Bool := listIsInfix p.data s.data

/-- JavaScript truthiness of an optional string: `null`/`undefined` and the
empty string are falsy. -/
def truthyStr : Option String → Option String
  | some s => if s = "" then none else some s
  | none => none

/-- One replication document from the `_replicator` status feed
(`database.getReplicationStatus()`), as consumed by `InstanceMonitor`. -/
structure Replication where
  id : String
  state : String
  stateTime : Option String := none
  source : Option String := none
  target : Option String := none
  stateReason : Option String := none
  docsRead : Nat := 0
  docsWritten : Nat := 0
deriving DecidableEq, Repr

/-- Result of `InstanceMonitor.extractPeerInfoFromReplication`. -/
structure PeerInfo where
  peerId : String
  peerLocation : String
  direction : String
  isHealthy : Bool
deriving DecidableEq, Repr

/-- Model of `InstanceMonitor.extractPeerInfoFromReplication` (instance-monitor.js lines
103-149). `parseHostname` models `new URL(u).hostname`, returning `none` when
the URL library throws. -/
def extractPeerInfoFromReplication (localId : String)
    (parseHostname : String → Option String) (r : Replication) : Option PeerInfo :=
  let pushPat := "push-" ++ localId ++ "-to-"
  let pullPat := "-to-" ++ localId
  let parsed : Option (String × String) :=
    if strStartsWith r.id pushPat then
      some (strReplaceFirst r.id pushPat "", "outbound")
    else if strStartsWith r.id "pull-" && strEndsWith r.id pullPat then
      some (strReplaceFirst (strReplaceFirst r.id "pull-" "") pullPat "", "inbound")
    else
      none
  match parsed with
  | none => none
  | some (peerId, direction) =>
    if peerId = "" then none
    else
      let targetUrl := if direction = "outbound" then r.target else r.source
      let peerLocation :=
        match targetUrl with
        | some u => (parseHostname u).getD "unknown"
        | none => "unknown"
      let isHealthy := r.state == "running" || r.state == "triggered"
      some { peerId := peerId, peerLocation := peerLocation,
             direction := direction, isHealthy := isHealthy }

/-- The per-link record pushed onto `instance.replications` by
`getInstanceStatus` (instance-monitor.js lines 54-62). -/
structure ReplicationInfo where
  id : String
  direction : String
  state : String
  stateReason : Option String
  docsRead : Nat
  docsWritten : Nat
  lastUpdate : Option String
deriving DecidableEq, Repr

def replicationInfoOf (r : Replication) : ReplicationInfo :=
  { id := r.id,
    direction := if strIncludes r.id "push-" then "outbound" else "inbound",
    state := r.state, stateReason := r.stateReason,
    docsRead := r.docsRead, docsWritten := r.docsWritten,
    lastUpdate := r.stateTime }

/-- One entry of the `instances` map built by `getInstanceStatus`. -/
structure InstanceEntry where
  id : String
  location : String
  status : String
  lastSeen : Option String
  isCurrentInstance : Bool
  replications : List ReplicationInfo
deriving DecidableEq, Repr

/-- JavaScript `instances.has(peerId)` on the insertion-ordered map, modelled as a list. -/
def hasInstance (l : List InstanceEntry) (pid : String) : Bool :=
  l.any (fun e => e.id == pid)

/-- Mutating `instances.get(pid)` in place. Ids are unique in the map (entries
are only appended when `hasInstance` is false), so updating every entry with a
matching id coincides with updating the single map entry. -/
def setInstance (pid : String) (f : InstanceEntry → InstanceEntry)
    (l : List InstanceEntry) : List InstanceEntry :=
  l.map (fun e => if e.id == pid then f e else e)

/-- The status/lastSeen update and `replications.push` applied to the map entry
for one replication link (instance-monitor.js lines 44-62). -/
def applyReplicationLink (now : String) (r : Replication) (pinfo : PeerInfo)
    (e : InstanceEntry) : InstanceEntry :=
  let e1 :=
    if pinfo.isHealthy && !(e.status == "active") then
      { e with status := "active", lastSeen := some ((truthyStr r.stateTime).getD now) }
    else if !pinfo.isHealthy && e.status == "active" then
      { e with status := "unreachable" }
    else e
  { e1 with replications := e1.replications ++ [replicationInfoOf r] }

/-- The freshly created map entry for a peer first seen on link `r`
(instance-monitor.js lines 34-41). -/
def newPeerEntry (r : Replication) (pinfo : PeerInfo) : InstanceEntry :=
  { id := pinfo.peerId, location := pinfo.peerLocation,
    status := if pinfo.isHealthy then "active" else "unreachable",
    lastSeen := truthyStr r.stateTime,
    isCurrentInstance := false, replications := [] }

/-- Processing of a single replication document inside the `for` loop of
`getInstanceStatus` (instance-monitor.js lines 28-64). -/
def stepReplication (localId : String) (parseHostname : String → Option String)
    (now : String) (acc : List InstanceEntry) (r : Replication) : List InstanceEntry :=
  match extractPeerInfoFromReplication localId parseHostname r with
  | none => acc
  | some pinfo =>
    let acc1 := if hasInstance acc pinfo.peerId then acc else acc ++ [newPeerEntry r pinfo]
    setInstance pinfo.peerId (applyReplicationLink now r pinfo) acc1

/-- The always-present entry for the local instance. -/
def localInstanceEntry (localId location now : String) : InstanceEntry :=
  { id := localId, location := location, status := "active",
    lastSeen := some now, isCurrentInstance := true, replications := [] }

/-- Boolean lexicographic comparison of character lists by code point,
modelling the default string comparison used by JavaScript sorts. -/
def listCharLe : List Char → List Char → Bool
  | [], _ => true
  | _ :: _, [] => false
  | a :: as, b :: bs =>
    if a.val.toNat < b.val.toNat then true
    else if b.val.toNat < a.val.toNat then false
    else listCharLe as bs

def strLeB (a b : String) : Bool := listCharLe a.data b.data

/-- The final `sort` of `getInstanceStatus` (instance-monitor.js lines 67-72):
the current instance first, the remaining peers by id. -/
def sortInstances (l : List InstanceEntry) : List InstanceEntry :=
  l.filter (fun e => e.isCurrentInstance)
    ++ List.insertionSort (fun a b => strLeB a.id b.id = true)
         (l.filter (fun e => !e.isCurrentInstance))

/-- Return value of `InstanceMonitor.getInstanceStatus`. -/
structure InstanceStatusResult where
  currentInstance : String
  totalInstances : Nat
  activeInstances : Nat
  unreachableInstances : Nat
  instances : List InstanceEntry
deriving DecidableEq, Repr

/-- The `try` branch of `getInstanceStatus`, applied to the successfully
fetched replication list. -/
def getInstanceStatusOk (localId location now : String)
    (parseHostname : String → Option String) (reps : List Replication) :
    InstanceStatusResult :=
  let final := reps.foldl (stepReplication localId parseHostname now)
    [localInstanceEntry localId location now]
  let sorted := sortInstances final
  { currentInstance := localId,
    totalInstances := sorted.length,
    activeInstances := (sorted.filter (fun e => e.status == "active")).length,
    unreachableInstances := (sorted.filter (fun e => e.status == "unreachable")).length,
    instances := sorted }

/-- The `catch` branch of `getInstanceStatus` (instance-monitor.js lines
81-97): the degraded local-only snapshot. -/
def fallbackInstanceStatus (localId location now : String) : InstanceStatusResult :=
  { currentInstance := localId, totalInstances := 1, activeInstances := 1,
    unreachableInstances := 0, instances := [localInstanceEntry localId location now] }

/-- Model of `InstanceMonitor.getInstanceStatus`: the status feed is an `Except`
parameter; a feed failure takes the `catch` branch. -/
def getInstanceStatus (localId location now : String)
    (parseHostname : String → Option String)
    (feed : Except String (List Replication)) : InstanceStatusResult :=
  match feed with
  | Except.ok reps => getInstanceStatusOk localId location now parseHostname reps
  | Except.error _ => fallbackInstanceStatus localId location now

/-- Return value of `InstanceMonitor.getNetworkSummary`; the float ratio
`replicationHealth` is kept as its numerator/denominator pair. -/
structure NetworkSummary where
  networkHealth : String
  totalInstances : Nat
  activeInstances : Nat
  unreachableInstances : Nat
  totalReplications : Nat
  healthyReplications : Nat
deriving DecidableEq, Repr

/-- Model of `InstanceMonitor.getNetworkSummary` (instance-monitor.js lines 154-175). -/
def getNetworkSummary (localId location now : String)
    (parseHostname : String → Option String)
    (feed : Except String (List Replication)) : NetworkSummary :=
  let status := getInstanceStatus localId location now parseHostname feed
  let totalReplications := status.instances.foldl (fun sum i => sum + i.replications.length) 0
  let healthyReplications := status.instances.foldl
    (fun sum i => sum + (i.replications.filter
      (fun r => r.state == "running" || r.state == "triggered")).length) 0
  { networkHealth :=
      if status.unreachableInstances == 0 then "healthy"
      else if status.activeInstances > status.unreachableInstances then "degraded"
      else "critical",
    totalInstances := status.totalInstances,
    activeInstances := status.activeInstances,
    unreachableInstances := status.unreachableInstances,
    totalReplications := totalReplications,
    healthyReplications := healthyReplications }

/-- JavaScript `Math.round(replicationHealth * 100)` where `replicationHealth` is
`healthy/total` when `total > 0` and `1` otherwise; `Math.round` is
floor of `x + 1/2` for the nonnegative ratios that occur here. -/
def replicationHealthPct (ns : NetworkSummary) : Nat :=
  if ns.totalReplications > 0 then
    (200 * ns.healthyReplications + ns.totalReplications) / (2 * ns.totalReplications)
  else 100

/-- The global `clusterIsolationState` object from cluster-health.js: `null` start time
is a closed window. -/
structure IsolationState where
  isolationStartTime : Option Int
  isolatedInstances : List String
deriving DecidableEq, Repr

/-- Model of `ClusterHealth.updateIsolationStatus` (cluster-health.js lines 627-644).
`lastIsolated` models `this.lastHealthCheck?.summary.isolated || []`, the
isolated-peer list of the previous snapshot. -/
def updateIsolationStatus (now : Int) (lastIsolated : List String)
    (currentlyIsolated : Bool) (s : IsolationState) : IsolationState :=
  if currentlyIsolated && s.isolationStartTime.isNone then
    { isolationStartTime := some now, isolatedInstances := lastIsolated }
  else if !currentlyIsolated && s.isolationStartTime.isSome then
    { isolationStartTime := none, isolatedInstances := [] }
  else if currentlyIsolated && s.isolationStartTime.isSome then
    { s with isolatedInstances := lastIsolated }
  else s

/-- Return value of `ClusterHealth.getIsolationInfo`. -/
structure IsolationInfo where
  isIsolated : Bool
  isolationStartTime : Option Int
  isolatedInstances : List String
  durationMs : Int
deriving DecidableEq, Repr

def getIsolationInfo (now : Int) (s : IsolationState) : IsolationInfo :=
  { isIsolated := s.isolationStartTime.isSome,
    isolationStartTime := s.isolationStartTime,
    isolatedInstances := s.isolatedInstances,
    durationMs :=
      match s.isolationStartTime with
      | some t => now - t
      | none => 0 }

/-- The slice of a record that `ClusterHealth.isRecordIsolated` reads:
`record.instanceMetadata?.lastModifiedAt` parsed with `new Date(...)`, `none`
when the metadata or the field is missing or empty. -/
structure HealthRecord where
  lastModifiedAt : Option Int
deriving DecidableEq, Repr

/-- Model of `ClusterHealth.isRecordIsolated` (cluster-health.js lines 680-689). -/
def isRecordIsolated (s : IsolationState) (record : HealthRecord) : Bool :=
  match s.isolationStartTime, record.lastModifiedAt with
  | some startTime, some lastModified => decide (startTime ≤ lastModified)
  | _, _ => false

/-- One mapped replication link inside a health snapshot. -/
structure HealthReplication where
  direction : String
  state : String
  stateReason : Option String
  docsTransferred : Nat
  lastUpdate : Option String
deriving DecidableEq, Repr

/-- One mapped instance inside a health snapshot. -/
structure HealthInstance where
  id : String
  name : String
  status : String
  isCurrentInstance : Bool
  lastSeen : Option String
  replications : List HealthReplication
deriving DecidableEq, Repr

structure HealthSummary where
  total : Nat
  healthy : Nat
  unhealthy : Nat
  networkHealth : String
  replicationHealth : Nat
  isolated : List String
deriving DecidableEq, Repr

/-- Return value of `ClusterHealth.checkClusterHealth`. -/
structure HealthResults where
  timestamp : String
  currentInstance : String
  instances : List HealthInstance
  summary : HealthSummary
  isolationInfo : IsolationInfo
deriving DecidableEq, Repr

/-- Model of `ClusterHealth.getIsolatedInstances`. -/
def getIsolatedInstances (instances : List InstanceEntry) : List String :=
  (instances.filter (fun e => e.status == "unreachable")).map (fun e => e.id)

def healthInstanceOf (e : InstanceEntry) : HealthInstance :=
  { id := e.id, name := e.location, status := e.status,
    isCurrentInstance := e.isCurrentInstance, lastSeen := e.lastSeen,
    replications := e.replications.map (fun r =>
      { direction := r.direction, state := r.state, stateReason := r.stateReason,
        docsTransferred := if r.direction == "outbound" then r.docsWritten else r.docsRead,
        lastUpdate := r.lastUpdate }) }

/-- The `catch` branch of `checkClusterHealth` (cluster-health.js lines
566-594): the fallback snapshot describing only the local instance. -/
def fallbackHealthResults (localId nowIso : String) (now : Int)
    (s : IsolationState) : HealthResults :=
  { timestamp := nowIso, currentInstance := localId,
    instances := [{ id := localId, name := "current", status := "active",
                    isCurrentInstance := true, lastSeen := some nowIso,
                    replications := [] }],
    summary := { total := 1, healthy := 1, unhealthy := 0,
                 networkHealth := "unknown", replicationHealth := 0, isolated := [] },
    isolationInfo := getIsolationInfo now s }

/-- Model of `ClusterHealth.checkClusterHealth` (cluster-health.js lines 521-595).
`outerFailure` models an exception thrown inside the `try` block itself (the
defensive outer `catch`); the status feed is passed through to
`getInstanceStatus`, which never throws. Returns the updated isolation state
together with the snapshot. -/
def checkClusterHealth (localId location nowIso : String) (now : Int)
    (parseHostname : String → Option String) (lastIsolated : List String)
    (outerFailure : Option String) (s : IsolationState)
    (feed : Except String (List Replication)) : IsolationState × HealthResults :=
  match outerFailure with
  | some _ => (s, fallbackHealthResults localId nowIso now s)
  | none =>
    let instanceStatus := getInstanceStatus localId location nowIso parseHostname feed
    let networkSummary := getNetworkSummary localId location nowIso parseHostname feed
    let currentlyIsolated := decide (0 < instanceStatus.unreachableInstances)
    let s1 := updateIsolationStatus now lastIsolated currentlyIsolated s
    (s1,
     { timestamp := nowIso, currentInstance := localId,
       instances := instanceStatus.instances.map healthInstanceOf,
       summary := { total := instanceStatus.totalInstances,
                    healthy := instanceStatus.activeInstances,
                    unhealthy := instanceStatus.unreachableInstances,
                    networkHealth := networkSummary.networkHealth,
                    replicationHealth := replicationHealthPct networkSummary,
                    isolated := getIsolatedInstances instanceStatus.instances },
       isolationInfo := getIsolationInfo now s1 })

/-- The bookkeeping fields skipped by
`ConflictDetector.hasSignificantDifferences` (instance-monitor.js line 919). -/
def ignoredConflictFields : List String := ["_rev", "_conflicts", "updatedAt", "instanceMetadata"]

/-- Reading a field of a loosely-typed document, modelled as an association
list of field names to values; `none` is JavaScript `undefined`. -/
def lookupField (doc : List (String × α)) (k : String) : Option α :=
  (doc.find? (fun p => p.1 == k)).map (fun p => p.2)

/-- Model of `ConflictDetector.hasSignificantDifferences` (instance-monitor.js lines
917-938). Values are compared through `JSON.stringify`, which on document
field values coincides with structural equality, modelled by `DecidableEq`;
an absent key stringifies to `undefined` on both sides. -/
def hasSignificantDifferences [DecidableEq α] (doc1 doc2 : List (String × α)) : Bool :=
  doc1.any (fun p => !ignoredConflictFields.contains p.1
    && !(decide (lookupField doc1 p.1 = lookupField doc2 p.1)))
  || doc2.any (fun p => !ignoredConflictFields.contains p.1
    && !(doc1.any (fun q => q.1 == p.1)))

/-- One entry of the `conflictVersions` array built by
`ConflictDetector.analyzeConflict`: the revision id, the raw document, and the
`lastModifiedBy` drawn from the document's `instanceMetadata`. -/
structure ConflictVersion (α : Type) where
  rev : String
  data : List (String × α)
  lastModifiedBy : Option String
deriving DecidableEq, Repr

/-- Return value of `ConflictDetector.analyzeConflictType`; the JavaScript
returns the bare string `no_conflict` for fewer than two versions and an
object otherwise. -/
inductive ConflictAnalysis where
  | noConflict
  | analysis (type : String) (instancesInvolved : List String)
      (requiresManualResolution : Bool)
deriving DecidableEq, Repr

/-- JavaScript `Set.add` keeping insertion order, as `Array.from(new Set(...))` yields. -/
def insertInstance (acc : List String) (i : String) : List String :=
  if acc.contains i then acc else acc ++ [i]

def instancesInvolved (versions : List (ConflictVersion α)) : List String :=
  versions.foldl (fun acc v =>
    match v.lastModifiedBy with
    | some i => insertInstance acc i
    | none => acc) []

/-- Model of `ConflictDetector.analyzeConflictType` (instance-monitor.js lines
809-835): the current revision is compared against each conflicting one; the
loop's early `break` does not change the computed flag. -/
def analyzeConflictType [DecidableEq α] (versions : List (ConflictVersion α)) :
    ConflictAnalysis :=
  match versions with
  | [] => ConflictAnalysis.noConflict
  | [_] => ConflictAnalysis.noConflict
  | v0 :: v1 :: rest =>
    let others := v1 :: rest
    let hasDataDifferences := others.any (fun v => hasSignificantDifferences v0.data v.data)
    ConflictAnalysis.analysis
      (if hasDataDifferences then "data_conflict" else "revision_conflict")
      (instancesInvolved (v0 :: v1 :: rest))
      hasDataDifferences

/-- JavaScript `[...arr].sort()` on string elements: the default comparator
sorts lexicographically by code unit; modelled with insertion sort under the
code-point comparison `strLeB` (identical ordering on the ASCII group and role
names this code handles). -/
def sortStrings (l : List String) : List String :=
  List.insertionSort (fun a b => strLeB a b = true) l

/-- JavaScript `sorted1.every((val, index) => val === sorted2[index])`: out-of-range
indexing yields `undefined`, which is never strictly equal to an element. -/
def everyIndexEq : List String → List String → Bool
  | [], _ => true
  | _ :: _, [] => false
  | a :: as, b :: bs => a == b && everyIndexEq as bs

/-- Model of `ConflictDetector.arraysEqual` (instance-monitor.js lines 940-953),
restricted to its array-input branch. -/
def arraysEqual (arr1 arr2 : List String) : Bool :=
  if arr1.length == arr2.length then
    everyIndexEq (sortStrings arr1) (sortStrings arr2)
  else false

/-- One entry of the user `conflictVersions` array built by
`ConflictDetector.analyzeUserConflict`; `groups`/`roles` default to `[]`. -/
structure UserVersion where
  rev : String
  username : Option String
  email : Option String
  groups : List String
  roles : List String
  enabled : Option Bool
  lastModifiedBy : Option String
  lastModifiedAt : Option String
deriving DecidableEq, Repr

structure UserConflictFlags where
  groups : Bool
  roles : Bool
  enabled : Bool
  profile : Bool
deriving DecidableEq, Repr

/-- Return value of `ConflictDetector.analyzeUserConflictType`: the bare
string `no_conflict` for fewer than two versions, a flag object otherwise. -/
inductive UserConflictType where
  | noConflict
  | fields (flags : UserConflictFlags)
deriving DecidableEq, Repr

/-- Model of `ConflictDetector.analyzeUserConflictType` (instance-monitor.js lines
837-874). -/
def analyzeUserConflictType (versions : List UserVersion) : UserConflictType :=
  match versions with
  | [] => UserConflictType.noConflict
  | [_] => UserConflictType.noConflict
  | base :: v1 :: rest =>
    let others := v1 :: rest
    UserConflictType.fields
      { groups := others.any (fun v => !arraysEqual base.groups v.groups),
        roles := others.any (fun v => !arraysEqual base.roles v.roles),
        enabled := others.any (fun v => !(decide (base.enabled = v.enabled))),
        profile := others.any (fun v =>
          !(decide (base.username = v.username)) || !(decide (base.email = v.email))) }

/-- The `instanceMetadata` object as carried on stored documents. -/
structure InstanceMetadata where
  createdBy : Option String := none
  createdAt : Option String := none
  lastModifiedBy : Option String := none
  lastModifiedAt : Option String := none
  version : Option Nat := none
deriving DecidableEq, Repr

/-- The `conflictResolution` stamp written by
`ConflictDetector.resolveConflict`. -/
structure ConflictResolution where
  resolvedAt : String
  resolvedBy : String
  winningRev : String
  deletedRevs : List String
deriving DecidableEq, Repr

/-- A stored document: an opaque domain payload plus the metadata fields that
`resolveConflict` could touch. -/
structure StoredDoc (α : Type) where
  body : α
  instanceMetadata : Option InstanceMetadata := none
  conflictResolution : Option ConflictResolution := none
deriving DecidableEq, Repr

/-- The live revisions of one document id, keyed by revision id. -/
abbrev RevisionStore (α : Type) := List (String × StoredDoc α)

def lookupRev (revs : RevisionStore α) (rev : String) : Option (StoredDoc α) :=
  (revs.find? (fun p => p.1 == rev)).map (fun p => p.2)

/-- Trace of the CouchDB calls `resolveConflict` makes, in order. -/
inductive StoreOp where
  | getRev (rev : String)
  | destroyRev (rev : String) (succeeded : Bool)
  | insertDoc (rev : String)
deriving DecidableEq, Repr

def removeRev (revs : RevisionStore α) (rev : String) : RevisionStore α :=
  revs.filter (fun p => !(p.1 == rev))

/-- One `db.destroy` attempt inside the deletion loop: a failure is caught,
logged and skipped (instance-monitor.js lines 961-968). `delFails` is the
oracle saying which deletions the store rejects. -/
def deleteStep (delFails : String → Bool) (acc : RevisionStore α × List StoreOp)
    (rev : String) : RevisionStore α × List StoreOp :=
  if delFails rev then (acc.1, acc.2 ++ [StoreOp.destroyRev rev false])
  else (removeRev acc.1 rev, acc.2 ++ [StoreOp.destroyRev rev true])

/-- Model of `ConflictDetector.resolveConflict` (instance-monitor.js lines 955-989):
fetch the winning revision (a failing `get` propagates through the outer
`catch`), best-effort delete every losing revision, then insert the winning
document carrying the `conflictResolution` stamp; `envInstanceId` models
`process.env.INSTANCE_ID`, `newRev` the revision id CouchDB assigns to the
insert. Returns the new store and the call trace. -/
def resolveConflict (envInstanceId : Option String) (nowIso newRev : String)
    (delFails : String → Bool) (revs : RevisionStore α)
    (winningRev : String) (losingRevs : List String) :
    Except String (RevisionStore α × List StoreOp) :=
  match lookupRev revs winningRev with
  | none => Except.error "not_found"
  | some winningDoc =>
    let deleted := losingRevs.foldl (deleteStep delFails) (revs, [StoreOp.getRev winningRev])
    let stamp : ConflictResolution :=
      { resolvedAt := nowIso, resolvedBy := envInstanceId.getD "unknown",
        winningRev := winningRev, deletedRevs := losingRevs }
    let resolvedDoc := { winningDoc with conflictResolution := some stamp }
    Except.ok (deleted.1 ++ [(newRev, resolvedDoc)], deleted.2 ++ [StoreOp.insertDoc newRev])

/-- A user document as the sync monitor re-reads it: an opaque payload of
domain fields plus the cache and metadata fields it may write. -/
structure UserRecord (α : Type) where
  body : α
  syncStatus : Option String := none
  updatedAt : Option String := none
  instanceMetadata : Option InstanceMetadata := none
deriving DecidableEq, Repr

/-- JavaScript `(currentDoc.instanceMetadata?.version || 1)`: a missing metadata object,
a missing version and the falsy version `0` all default to `1`. -/
def versionOrDefault (m : Option InstanceMetadata) : Nat :=
  match m with
  | some meta =>
    match meta.version with
    | some v => if v = 0 then 1 else v
    | none => 1
  | none => 1

/-- The update `SyncMonitor.checkAndUpdateAllUserSyncStatus` applies to the
freshly re-read document before `db.insert` (instance-monitor.js lines
500-518): set `syncStatus` and `updatedAt`, spread the old `instanceMetadata`
and overwrite its `lastModifiedBy`, `lastModifiedAt` and bumped `version`. -/
def persistSyncStatus (envInstanceId : Option String) (nowIso : String)
    (newStatus : Option String) (currentDoc : UserRecord α) : UserRecord α :=
  { currentDoc with
    syncStatus := newStatus,
    updatedAt := some nowIso,
    instanceMetadata := some
      { currentDoc.instanceMetadata.getD {} with
        lastModifiedBy := some (envInstanceId.getD "sync-monitor"),
        lastModifiedAt := some nowIso,
        version := some (versionOrDefault currentDoc.instanceMetadata + 1) } }

/-- The re-read-then-write step for one user: `db.get(user._id)` immediately
followed by `db.insert` of the updated document; a failing read is caught and
leaves the store unchanged. -/
def writeUserSyncStatus (envInstanceId : Option String) (nowIso : String)
    (newStatus : Option String) (store : String → Option (UserRecord α))
    (uid : String) : String → Option (UserRecord α) :=
  match store uid with
  | none => store
  | some currentDoc =>
    fun k => if k = uid then
        some (persistSyncStatus envInstanceId nowIso newStatus currentDoc)
      else store k

/-- The link-health predicate exactly as the specification words it (healthy
on `running` or `completed`); kept separate from the code's
`extractPeerInfoFromReplication` so the two can be compared. -/
def specLinkHealthy (state : String) : Bool :=
  state == "running" || state == "completed"

/-- All links of `reps` that parse to the peer `pid`, in feed order. -/
def peerLinks (localId : String) (parseHostname : String → Option String)
    (reps : List Replication) (pid : String) : List PeerInfo :=
  (reps.filterMap (extractPeerInfoFromReplication localId parseHostname)).filter
    (fun pinfo => pinfo.peerId == pid)

/-- A sequence of health-check cycles feeding `updateIsolationStatus`: each
update carries the wall-clock time, the previous snapshot's isolated list, and
the unreachable-peer count of the current snapshot. -/
def runIsolationUpdates (s : IsolationState)
    (updates : List (Int × List String × Nat)) : IsolationState :=
  updates.foldl (fun s u => updateIsolationStatus u.1 u.2.1 (decide (0 < u.2.2)) s) s

/-- The winner's content with only the `conflictResolution` stamp added, as
`resolveConflict` inserts it. -/
def stampDoc (nowIso resolvedBy w : String) (ls : List String)
    (d : StoredDoc α) : StoredDoc α :=
  let stamp : ConflictResolution :=
    { resolvedAt := nowIso, resolvedBy := resolvedBy,
      winningRev := w, deletedRevs := ls }
  { d with conflictResolution := some stamp }

/-- The revision list left after the best-effort deletion loop. -/
def applyDeletions (delFails : String → Bool) (revs : RevisionStore α)
    (ls : List String) : RevisionStore α :=
  ls.foldl (fun acc rev => if delFails rev then acc else removeRev acc rev) revs

/-- A document whose metadata carries version 3, used as the concrete winning
revision in the counterexamples below. -/
def exDocA : StoredDoc Nat :=
  { body := 1, instanceMetadata := some { version := some 3 } }

def exDocB : StoredDoc Nat := { body := 2 }

def exStore : RevisionStore Nat := [("1-a", exDocA), ("1-b", exDocB)]

/-- True when some deletion call appears before a later insert in the trace. -/
def destroyPrecedesInsert : List StoreOp → Bool
  | [] => false
  | StoreOp.destroyRev _ _ :: rest =>
    rest.any (fun o => match o with | StoreOp.insertDoc _ => true | _ => false)
  | _ :: rest => destroyPrecedesInsert rest

/-- Concrete metadata (version 3) for the witness below. -/
def exUserMeta : InstanceMetadata :=
  { createdBy := some "i1", createdAt := some "T0",
    lastModifiedBy := some "i1", lastModifiedAt := some "T0",
    version := some 3 }

/-- A concrete user record for the witness below. -/
def exUserDoc : UserRecord Nat :=
  { body := 42, syncStatus := some "synced", updatedAt := some "T0",
    instanceMetadata := some exUserMeta }

/-- Two concrete user revisions with identically membered but differently
ordered groups and roles, for the witness below. -/
def exUserV1 : UserVersion :=
  ⟨"1-a", some "u", some "e", ["admins", "users"], ["read", "write"],
   some true, some "i1", some "T0"⟩

def exUserV2 : UserVersion :=
  ⟨"1-b", some "u", some "e", ["users", "admins"], ["write", "read"],
   some true, some "i2", some "T1"⟩

/-- A healthy-then-unhealthy pair of links to peer `p2`, and a `completed`
link, used to refute the claimed classification. -/
def exRep1 : Replication := { id := "push-i1-to-p2", state := "running" }

def exRep2 : Replication := { id := "push-i1-to-p2", state := "error" }

def exRepC : Replication := { id := "push-i1-to-p2", state := "completed" }

/-- A URL parser stub standing for `new URL` failing on every input. -/
def noHost : String → Option String := fun _ => none

/-- The entry `getInstanceStatus` builds for peer `p2` from
`[exRep1, exRep2]`, used by the witness below. -/
def exPeerEntry : InstanceEntry :=
  { id := "p2", location := "unknown", status := "unreachable",
    lastSeen := none, isCurrentInstance := false,
    replications := [replicationInfoOf exRep1, replicationInfoOf exRep2] }

lemma updateIsolationStatus_false_startedAt (now : Int) (peers : List String)
    (s : IsolationState) :
    (updateIsolationStatus now peers false s).isolationStartTime = none := by
  cases hst : s.isolationStartTime <;> simp [updateIsolationStatus, hst]

lemma runIsolationUpdates_startedAt_of_pos (updates : List (Int × List String × Nat)) :
    ∀ (s : IsolationState) (t0 : Int), s.isolationStartTime = some t0 →
    (∀ u ∈ updates, 0 < u.2.2) →
    (runIsolationUpdates s updates).isolationStartTime = some t0 := by
  induction updates with
  | nil => intro s t0 h _; exact h
  | cons u us ih =>
    intro s t0 h hpos
    have hu : 0 < u.2.2 := hpos u (List.mem_cons_self u us)
    have hstep : (updateIsolationStatus u.1 u.2.1 (decide (0 < u.2.2)) s).isolationStartTime
        = some t0 := by
      simp [updateIsolationStatus, hu, h]
    have := ih (updateIsolationStatus u.1 u.2.1 (decide (0 < u.2.2)) s) t0 hstep
      (fun v hv => hpos v (List.mem_cons_of_mem u hv))
    simpa [runIsolationUpdates] using this

/-- C4: `startedAt` (`isolationStartTime`) is set exactly on the transition
from a closed window to a positive unreachable count, is unchanged (while the
isolated-peer list is refreshed) on every later update with a positive count,
is cleared whenever the count is zero, and in particular is `null` after two
consecutive zero-count updates. -/
theorem updateIsolationStatus_window_lifecycle :
    ∀ (now : Int) (peers : List String) (cnt : Nat) (s : IsolationState),
    (s.isolationStartTime = none → 0 < cnt →
      (updateIsolationStatus now peers (decide (0 < cnt)) s).isolationStartTime = some now) ∧
    (∀ t0, s.isolationStartTime = some t0 → 0 < cnt →
      updateIsolationStatus now peers (decide (0 < cnt)) s =
        { isolationStartTime := some t0, isolatedInstances := peers }) ∧
    (cnt = 0 →
      (updateIsolationStatus now peers (decide (0 < cnt)) s).isolationStartTime = none) ∧
    (∀ t0 (updates : List (Int × List String × Nat)),
      s.isolationStartTime = some t0 → (∀ u ∈ updates, 0 < u.2.2) →
      (runIsolationUpdates s updates).isolationStartTime = some t0) ∧
    (∀ (now2 : Int) (peers2 : List String), cnt = 0 →
      (runIsolationUpdates s
        [(now, peers, 0), (now2, peers2, 0)]).isolationStartTime = none) := by
  intro now peers cnt s
  refine ⟨?_, ?_, ?_, ?_, ?_⟩
  · intro hnone hcnt
    simp [updateIsolationStatus, hcnt, hnone]
  · intro t0 hsome hcnt
    cases s
    simp_all [updateIsolationStatus]
  · intro hz
    subst hz
    exact updateIsolationStatus_false_startedAt now peers s
  · intro t0 updates hsome hpos
    exact runIsolationUpdates_startedAt_of_pos updates s t0 hsome hpos
  · intro now2 peers2 _
    simp only [runIsolationUpdates, List.foldl_cons, List.foldl_nil]
    exact updateIsolationStatus_false_startedAt now2 peers2 _

/-- Witness for `updateIsolationStatus_window_lifecycle` at concrete inputs. -/
theorem updateIsolationStatus_window_lifecycle_witness :
    (updateIsolationStatus 5 ["p2"] (decide (0 < 1))
      ⟨none, []⟩).isolationStartTime = some 5 ∧
    updateIsolationStatus 7 ["p3"] (decide (0 < 2)) ⟨some 5, ["p2"]⟩ =
      ⟨some 5, ["p3"]⟩ ∧
    (runIsolationUpdates ⟨some 5, ["p2"]⟩
      [(8, ["p4"], 3), (9, ["p5"], 1)]).isolationStartTime = some 5 ∧
    (runIsolationUpdates ⟨some 5, ["p2"]⟩
      [(10, [], 0), (11, [], 0)]).isolationStartTime = none :=
  ⟨(updateIsolationStatus_window_lifecycle 5 ["p2"] 1 ⟨none, []⟩).1 rfl (by decide),
   (updateIsolationStatus_window_lifecycle 7 ["p3"] 2 ⟨some 5, ["p2"]⟩).2.1 5 rfl (by decide),
   (updateIsolationStatus_window_lifecycle 8 ["p4"] 3 ⟨some 5, ["p2"]⟩).2.2.2.1 5
     [(8, ["p4"], 3), (9, ["p5"], 1)] rfl (by decide),
   (updateIsolationStatus_window_lifecycle 10 [] 0 ⟨some 5, ["p2"]⟩).2.2.2.2 11 [] rfl⟩

/-- C5: `isRecordIsolated` is false when no window is open or the record has
no `lastModifiedAt`, and otherwise true exactly when `lastModifiedAt` is at or
after the window start; the boundary `lastModifiedAt = startedAt` counts as
isolated and anything strictly earlier does not. -/
theorem isRecordIsolated_boundary :
    ∀ (s : IsolationState) (r : HealthRecord),
    (s.isolationStartTime = none → isRecordIsolated s r = false) ∧
    (r.lastModifiedAt = none → isRecordIsolated s r = false) ∧
    (∀ st lm, s.isolationStartTime = some st → r.lastModifiedAt = some lm →
      (isRecordIsolated s r = true ↔ st ≤ lm)) ∧
    (∀ st, isRecordIsolated ⟨some st, s.isolatedInstances⟩ ⟨some st⟩ = true) ∧
    (∀ st lm, lm < st →
      isRecordIsolated ⟨some st, s.isolatedInstances⟩ ⟨some lm⟩ = false) := by
  intro s r
  refine ⟨?_, ?_, ?_, ?_, ?_⟩
  · intro h; simp [isRecordIsolated, h]
  · intro h
    cases hst : s.isolationStartTime <;> simp [isRecordIsolated, hst, h]
  · intro st lm hst hlm
    simp [isRecordIsolated, hst, hlm]
  · intro st; simp [isRecordIsolated]
  · intro st lm hlt
    simp [isRecordIsolated]
    omega

/-- Witness for `isRecordIsolated_boundary` at concrete inputs. -/
theorem isRecordIsolated_boundary_witness :
    (isRecordIsolated ⟨none, []⟩ ⟨some 3⟩ = false) ∧
    (isRecordIsolated ⟨some 10, ["p2"]⟩ ⟨none⟩ = false) ∧
    (isRecordIsolated ⟨some 10, ["p2"]⟩ ⟨some 12⟩ = true ↔ (10 : Int) ≤ 12) ∧
    (isRecordIsolated ⟨some 10, ["p2"]⟩ ⟨some 10⟩ = true) ∧
    (isRecordIsolated ⟨some 10, ["p2"]⟩ ⟨some 9⟩ = false) :=
  ⟨(isRecordIsolated_boundary ⟨none, []⟩ ⟨some 3⟩).1 rfl,
   (isRecordIsolated_boundary ⟨some 10, ["p2"]⟩ ⟨none⟩).2.1 rfl,
   (isRecordIsolated_boundary ⟨some 10, ["p2"]⟩ ⟨some 12⟩).2.2.1 10 12 rfl rfl,
   (isRecordIsolated_boundary ⟨some 10, ["p2"]⟩ ⟨some 10⟩).2.2.2.1 10,
   (isRecordIsolated_boundary ⟨some 10, ["p2"]⟩ ⟨some 9⟩).2.2.2.2 10 9 (by decide)⟩

/-- C8: on a failing status feed `getInstanceStatus` returns the local-only
degraded snapshot (total 1, active 1, unreachable 0, local instance active),
`checkClusterHealth` then reports the same counts with just the local
instance, and an internal failure inside `checkClusterHealth` itself yields
the fallback snapshot with the same shape; both functions are total, so no
error escapes to the caller. -/
theorem degraded_snapshot_on_failure :
    ∀ (localId location nowIso : String) (now : Int)
      (ph : String → Option String) (lastIsolated : List String)
      (s : IsolationState) (e msg : String)
      (feed : Except String (List Replication)),
    (getInstanceStatus localId location nowIso ph (Except.error e) =
      { currentInstance := localId, totalInstances := 1, activeInstances := 1,
        unreachableInstances := 0,
        instances := [localInstanceEntry localId location nowIso] }) ∧
    ((localInstanceEntry localId location nowIso).status = "active") ∧
    ((checkClusterHealth localId location nowIso now ph lastIsolated none s
        (Except.error e)).2.summary.total = 1) ∧
    ((checkClusterHealth localId location nowIso now ph lastIsolated none s
        (Except.error e)).2.summary.healthy = 1) ∧
    ((checkClusterHealth localId location nowIso now ph lastIsolated none s
        (Except.error e)).2.summary.unhealthy = 0) ∧
    ((checkClusterHealth localId location nowIso now ph lastIsolated none s
        (Except.error e)).2.instances =
      [healthInstanceOf (localInstanceEntry localId location nowIso)]) ∧
    ((healthInstanceOf (localInstanceEntry localId location nowIso)).status = "active") ∧
    (checkClusterHealth localId location nowIso now ph lastIsolated (some msg) s feed =
      (s, fallbackHealthResults localId nowIso now s)) ∧
    ((fallbackHealthResults localId nowIso now s).summary.total = 1) ∧
    ((fallbackHealthResults localId nowIso now s).summary.healthy = 1) ∧
    ((fallbackHealthResults localId nowIso now s).summary.unhealthy = 0) ∧
    ((fallbackHealthResults localId nowIso now s).instances.map
        (fun i => (i.id, i.status)) = [(localId, "active")]) := by
  intro localId location nowIso now ph lastIsolated s e msg feed
  refine ⟨rfl, rfl, ?_, ?_, ?_, ?_, rfl, rfl, rfl, rfl, rfl, rfl⟩ <;>
    simp [checkClusterHealth, getInstanceStatus, fallbackInstanceStatus,
      getIsolatedInstances, localInstanceEntry]

lemma foldl_deleteStep (delFails : String → Bool) :
    ∀ (ls : List String) (revs : RevisionStore α) (ops : List StoreOp),
    ls.foldl (deleteStep delFails) (revs, ops) =
      (applyDeletions delFails revs ls,
       ops ++ ls.map (fun rev => StoreOp.destroyRev rev (!delFails rev))) := by
  intro ls
  induction ls with
  | nil => intro revs ops; simp [applyDeletions]
  | cons a as ih =>
    intro revs ops
    by_cases h : delFails a = true
    · simp [deleteStep, applyDeletions, h, ih, List.foldl_cons]
    · have h2 : delFails a = false := by simp_all
      simp [deleteStep, applyDeletions, h2, ih, List.foldl_cons]

lemma getLast?_append_singleton {γ : Type} (l : List γ) (a : γ) :
    (l ++ [a]).getLast? = some a := by simp

lemma resolveConflict_ok_eq (envId : Option String) (nowIso newRev : String)
    (delFails : String → Bool) (revs : RevisionStore α) (w : String)
    (ls : List String) (d : StoredDoc α) (h : lookupRev revs w = some d) :
    resolveConflict envId nowIso newRev delFails revs w ls =
      Except.ok (applyDeletions delFails revs ls ++
          [(newRev, stampDoc nowIso (envId.getD "unknown") w ls d)],
        [StoreOp.getRev w]
          ++ ls.map (fun rev => StoreOp.destroyRev rev (!delFails rev))
          ++ [StoreOp.insertDoc newRev]) := by
  simp [resolveConflict, h, foldl_deleteStep, List.append_assoc, stampDoc]

/-- C2 (amended): `resolveConflict` first fetches the winning revision, then
best-effort deletes every losing revision, and only then inserts the new
document; the inserted document is the winner's content with only the
`conflictResolution` stamp `{resolvedAt, resolvedBy, winningRev, deletedRevs}`
added — `instanceMetadata` (its version included) is not modified. -/
theorem resolveConflict_order_and_content :
    ∀ (α : Type) (envId : Option String) (nowIso newRev : String)
      (delFails : String → Bool) (revs : RevisionStore α) (w : String)
      (ls : List String) (d : StoredDoc α),
    lookupRev revs w = some d →
    resolveConflict envId nowIso newRev delFails revs w ls =
      Except.ok (applyDeletions delFails revs ls ++
          [(newRev, stampDoc nowIso (envId.getD "unknown") w ls d)],
        [StoreOp.getRev w]
          ++ ls.map (fun rev => StoreOp.destroyRev rev (!delFails rev))
          ++ [StoreOp.insertDoc newRev]) ∧
    (stampDoc nowIso (envId.getD "unknown") w ls d : StoredDoc α).instanceMetadata = d.instanceMetadata :=
  fun _ envId nowIso newRev delFails revs w ls d h =>
    ⟨resolveConflict_ok_eq envId nowIso newRev delFails revs w ls d h, rfl⟩

/-- C2 counterexample: at a concrete two-revision store the call trace is
get, destroy, insert — the losing revision is deleted before the new revision
is written, not after — and the written document's `instanceMetadata.version`
is still 3, not bumped. This contradicts the claim that the operation "first
writes a new revision ... with updated instanceMetadata (version bumped ...)
and only then deletes each losing revision". -/
theorem resolveConflict_write_first_counterexample :
    resolveConflict (some "i1") "T" "2-a" (fun _ => false) exStore "1-a" ["1-b"] =
      Except.ok ([("1-a", exDocA),
          ("2-a", stampDoc "T" "i1" "1-a" ["1-b"] exDocA)],
        [StoreOp.getRev "1-a", StoreOp.destroyRev "1-b" true,
         StoreOp.insertDoc "2-a"]) ∧
    destroyPrecedesInsert
      [StoreOp.getRev "1-a", StoreOp.destroyRev "1-b" true,
       StoreOp.insertDoc "2-a"] = true ∧
    (stampDoc "T" "i1" "1-a" ["1-b"] exDocA).instanceMetadata
      = some { version := some 3 } :=
  ⟨rfl, rfl, rfl⟩

/-- Witness for `resolveConflict_order_and_content` at a concrete store. -/
theorem resolveConflict_order_and_content_witness :
    lookupRev exStore "1-a" = some exDocA ∧
    (resolveConflict (some "i1") "T" "2-a" (fun _ => false) exStore "1-a" ["1-b"] =
      Except.ok (applyDeletions (fun _ => false) exStore ["1-b"] ++
          [("2-a", stampDoc "T" "i1" "1-a" ["1-b"] exDocA)],
        [StoreOp.getRev "1-a"]
          ++ (["1-b"].map (fun rev => StoreOp.destroyRev rev (!(fun _ => false) rev)))
          ++ [StoreOp.insertDoc "2-a"]) ∧
     (stampDoc "T" "i1" "1-a" ["1-b"] exDocA : StoredDoc Nat).instanceMetadata = exDocA.instanceMetadata) :=
  ⟨rfl, resolveConflict_order_and_content Nat (some "i1") "T" "2-a" (fun _ => false)
    exStore "1-a" ["1-b"] exDocA rfl⟩

/-- C6 (amended): a `winningRevisionId` matching no current revision makes the
initial `get` fail and the error propagates before anything is deleted or
written, though as the store's raw error, not a typed `StaleRevisionError`;
there is no zero-conflict check: with no losing revisions the call succeeds
and still writes the `conflictResolution` stamp. -/
theorem resolveConflict_failure_modes :
    ∀ (α : Type) (envId : Option String) (nowIso newRev : String)
      (delFails : String → Bool) (revs : RevisionStore α) (w : String)
      (ls : List String),
    (lookupRev revs w = none →
      resolveConflict envId nowIso newRev delFails revs w ls =
        Except.error "not_found") ∧
    (∀ d, lookupRev revs w = some d →
      resolveConflict envId nowIso newRev delFails revs w [] =
        Except.ok (revs ++ [(newRev, stampDoc nowIso (envId.getD "unknown") w [] d)],
          [StoreOp.getRev w, StoreOp.insertDoc newRev])) := by
  intro α envId nowIso newRev delFails revs w ls
  constructor
  · intro h
    simp [resolveConflict, h]
  · intro d h
    simpa [applyDeletions] using
      resolveConflict_ok_eq envId nowIso newRev delFails revs w [] d h

/-- C6 counterexample: resolving a record with zero remaining conflicting
revisions does not fail with a `NoConflictError` and is not a no-op — at a
concrete single-revision store the call succeeds and writes a new revision
carrying the resolution stamp. -/
theorem resolveConflict_no_conflict_error_counterexample :
    resolveConflict (some "i1") "T" "2-a" (fun _ => false)
        [("1-a", exDocA)] "1-a" [] =
      Except.ok ([("1-a", exDocA),
          ("2-a", stampDoc "T" "i1" "1-a" [] exDocA)],
        [StoreOp.getRev "1-a", StoreOp.insertDoc "2-a"]) ∧
    ([("1-a", exDocA),
      ("2-a", stampDoc "T" "i1" "1-a" [] exDocA)] : RevisionStore Nat)
      ≠ [("1-a", exDocA)] :=
  ⟨rfl, by decide⟩

/-- Witness for `resolveConflict_failure_modes` at concrete stores. -/
theorem resolveConflict_failure_modes_witness :
    lookupRev (α := Nat) [("1-a", exDocA)] "9-z" = none ∧
    resolveConflict (some "i1") "T" "2-a" (fun _ => false)
      [("1-a", exDocA)] "9-z" ["1-b"] = Except.error "not_found" ∧
    lookupRev [("1-a", exDocA)] "1-a" = some exDocA ∧
    resolveConflict (some "i1") "T" "2-a" (fun _ => false)
        [("1-a", exDocA)] "1-a" [] =
      Except.ok ([("1-a", exDocA),
          ("2-a", stampDoc "T" "i1" "1-a" [] exDocA)],
        [StoreOp.getRev "1-a", StoreOp.insertDoc "2-a"]) :=
  ⟨rfl,
   (resolveConflict_failure_modes Nat (some "i1") "T" "2-a" (fun _ => false)
     [("1-a", exDocA)] "9-z" ["1-b"]).1 rfl,
   rfl,
   (resolveConflict_failure_modes Nat (some "i1") "T" "2-a" (fun _ => false)
     [("1-a", exDocA)] "1-a" []).2 exDocA rfl⟩

/-- C7: when the winner fetch succeeds, `resolveConflict` returns success no
matter which deletions fail; every losing revision gets its own deletion
attempt (failures included, each logged and skipped) and the winner write
still happens, as the last call of the trace. -/
theorem resolveConflict_best_effort_deletions :
    ∀ (α : Type) (envId : Option String) (nowIso newRev : String)
      (delFails : String → Bool) (revs : RevisionStore α) (w : String)
      (ls : List String) (d : StoredDoc α),
    lookupRev revs w = some d →
    ∃ revs1 ops, resolveConflict envId nowIso newRev delFails revs w ls =
        Except.ok (revs1, ops) ∧
      (∀ rev ∈ ls, StoreOp.destroyRev rev (!delFails rev) ∈ ops) ∧
      ops.getLast? = some (StoreOp.insertDoc newRev) := by
  intro α envId nowIso newRev delFails revs w ls d h
  refine ⟨_, _, resolveConflict_ok_eq envId nowIso newRev delFails revs w ls d h,
    ?_, ?_⟩
  · intro rev hrev
    rw [List.mem_append]
    left
    rw [List.mem_append]
    right
    exact List.mem_map_of_mem _ hrev
  · exact getLast?_append_singleton _ _

/-- Witness for `resolveConflict_best_effort_deletions` with one failing and
one succeeding deletion. -/
theorem resolveConflict_best_effort_deletions_witness :
    lookupRev exStore "1-a" = some exDocA ∧
    (∃ revs1 ops,
      resolveConflict (some "i1") "T" "2-a" (fun rev => rev == "1-b") exStore
          "1-a" ["1-b", "1-c"] = Except.ok (revs1, ops) ∧
      (∀ rev ∈ ["1-b", "1-c"],
        StoreOp.destroyRev rev (!(fun rev => rev == "1-b") rev) ∈ ops) ∧
      ops.getLast? = some (StoreOp.insertDoc "2-a")) :=
  ⟨rfl, resolveConflict_best_effort_deletions Nat (some "i1") "T" "2-a"
    (fun rev => rev == "1-b") exStore "1-a" ["1-b", "1-c"] exDocA rfl⟩

/-- C9: the document written by the sync-status sweep is computed from the
freshly re-read document and differs from it only in `syncStatus`,
`updatedAt` and the `lastModifiedBy`/`lastModifiedAt`/`version` fields of
`instanceMetadata` (the version bumped by one whenever the re-read document
carries a positive version); the domain payload and the `createdBy` and
`createdAt` metadata are unchanged. -/
theorem persistSyncStatus_frame :
    ∀ (α : Type) (envId : Option String) (nowIso : String)
      (newStatus : Option String) (doc : UserRecord α),
    ((persistSyncStatus envId nowIso newStatus doc).body = doc.body) ∧
    ((persistSyncStatus envId nowIso newStatus doc).syncStatus = newStatus) ∧
    ((persistSyncStatus envId nowIso newStatus doc).updatedAt = some nowIso) ∧
    (∀ m, doc.instanceMetadata = some m →
      (persistSyncStatus envId nowIso newStatus doc).instanceMetadata =
        some { m with lastModifiedBy := some (envId.getD "sync-monitor"),
                      lastModifiedAt := some nowIso,
                      version := some (versionOrDefault (some m) + 1) }) ∧
    (∀ m v, doc.instanceMetadata = some m → m.version = some v → 0 < v →
      versionOrDefault (some m) + 1 = v + 1) ∧
    (∀ (store : String → Option (UserRecord α)) (uid : String)
       (cur : UserRecord α), store uid = some cur →
      writeUserSyncStatus envId nowIso newStatus store uid uid =
        some (persistSyncStatus envId nowIso newStatus cur)) := by
  intro α envId nowIso newStatus doc
  refine ⟨rfl, rfl, rfl, ?_, ?_, ?_⟩
  · intro m hm
    simp [persistSyncStatus, hm]
  · intro m v _ hv hpos
    have : v ≠ 0 := Nat.pos_iff_ne_zero.mp hpos
    simp [versionOrDefault, hv, this]
  · intro store uid cur hcur
    simp [writeUserSyncStatus, hcur]

/-- Witness for `persistSyncStatus_frame` at a concrete record and store. -/
theorem persistSyncStatus_frame_witness :
    (∀ m, exUserDoc.instanceMetadata = some m →
      (persistSyncStatus (some "i2") "T1" (some "conflict") exUserDoc).instanceMetadata =
        some { m with lastModifiedBy := some ((some "i2").getD "sync-monitor"),
                      lastModifiedAt := some "T1",
                      version := some (versionOrDefault (some m) + 1) }) ∧
    (∀ m, exUserDoc.instanceMetadata = some m → m.version = some 3 → 0 < 3 →
      versionOrDefault (some m) + 1 = 3 + 1) ∧
    ((fun k => if k = "u1" then some exUserDoc else none) "u1" = some exUserDoc ∧
      writeUserSyncStatus (some "i2") "T1" (some "conflict")
        (fun k => if k = "u1" then some exUserDoc else none) "u1" "u1" =
        some (persistSyncStatus (some "i2") "T1" (some "conflict") exUserDoc)) :=
  ⟨(persistSyncStatus_frame Nat (some "i2") "T1" (some "conflict") exUserDoc).2.2.2.1,
   fun m hm hv _ =>
     (persistSyncStatus_frame Nat (some "i2") "T1" (some "conflict")
       exUserDoc).2.2.2.2.1 m 3 hm hv (by decide),
   ⟨rfl,
    (persistSyncStatus_frame Nat (some "i2") "T1" (some "conflict")
      exUserDoc).2.2.2.2.2 (fun k => if k = "u1" then some exUserDoc else none)
      "u1" exUserDoc rfl⟩⟩

lemma lookupField_isSome_of_mem {α : Type} (d : List (String × α))
    (p : String × α) (hp : p ∈ d) : (lookupField d p.1).isSome := by
  have : (d.find? (fun q => q.1 == p.1)).isSome :=
    List.find?_isSome.mpr ⟨p, hp, by simp⟩
  simpa [lookupField] using this

lemma lookupField_some_mem {α : Type} (d : List (String × α)) (k : String)
    (v : α) (h : lookupField d k = some v) : ∃ p, p ∈ d ∧ p.1 = k ∧ p.2 = v := by
  rw [lookupField, Option.map_eq_some'] at h
  obtain ⟨q, hq, hqv⟩ := h
  refine ⟨q, List.mem_of_find?_eq_some hq, ?_, hqv⟩
  have := List.find?_some hq
  simpa using this

lemma hasSignificantDifferences_eq_false_iff {α : Type} [DecidableEq α]
    (d1 d2 : List (String × α)) :
    hasSignificantDifferences d1 d2 = false ↔
      ∀ k, k ∉ ignoredConflictFields → lookupField d1 k = lookupField d2 k := by
  constructor
  · intro h k hk
    simp only [hasSignificantDifferences, Bool.or_eq_false_iff,
      List.any_eq_false] at h
    obtain ⟨h1, h2⟩ := h
    rcases hv1 : lookupField d1 k with _ | v
    · rcases hv2 : lookupField d2 k with _ | w
      · rfl
      · obtain ⟨q, hq, hqk, _⟩ := lookupField_some_mem d2 k w hv2
        have hthis := h2 q hq
        rw [hqk] at hthis
        simp only [Bool.and_eq_true, Bool.not_eq_true', Bool.not_eq_false,
          not_and] at hthis
        have hcont : ignoredConflictFields.contains k = false := by
          simp [hk]
        have hany := hthis hcont
        obtain ⟨p, hp, hpk⟩ := List.any_eq_true.mp hany
        have hpk2 : p.1 = k := by simpa using hpk
        have := lookupField_isSome_of_mem d1 p hp
        rw [hpk2, hv1] at this
        simp at this
    · obtain ⟨p, hp, hpk, _⟩ := lookupField_some_mem d1 k v hv1
      have hthis := h1 p hp
      rw [hpk] at hthis
      simp only [Bool.and_eq_true, Bool.not_eq_true', Bool.not_eq_false,
        not_and] at hthis
      have hcont : ignoredConflictFields.contains k = false := by
        simp [hk]
      have := hthis hcont
      rw [← hv1]
      simpa using this
  · intro h
    simp only [hasSignificantDifferences, Bool.or_eq_false_iff, List.any_eq_false]
    constructor
    · intro p hp
      by_cases hig : p.1 ∈ ignoredConflictFields
      · simp [hig]
      · have := h p.1 hig
        simp [hig, this]
    · intro q hq
      by_cases hig : q.1 ∈ ignoredConflictFields
      · simp [hig]
      · have heq := h q.1 hig
        have hs : (lookupField d2 q.1).isSome := lookupField_isSome_of_mem d2 q hq
        rw [← heq] at hs
        obtain ⟨v, hv⟩ := Option.isSome_iff_exists.mp hs
        obtain ⟨p, hp, hpk, _⟩ := lookupField_some_mem d1 q.1 v hv
        have hany : d1.any (fun p2 => p2.1 == q.1) = true :=
          List.any_eq_true.mpr ⟨p, hp, by simp [hpk]⟩
        simp [hig, hany]

lemma hasSignificantDifferences_eq_true_iff {α : Type} [DecidableEq α]
    (d1 d2 : List (String × α)) :
    hasSignificantDifferences d1 d2 = true ↔
      ∃ k, k ∉ ignoredConflictFields ∧ lookupField d1 k ≠ lookupField d2 k := by
  constructor
  · intro ht
    by_contra hno
    push_neg at hno
    have hf : hasSignificantDifferences d1 d2 = false :=
      (hasSignificantDifferences_eq_false_iff d1 d2).mpr hno
    rw [hf] at ht
    exact Bool.false_ne_true ht
  · rintro ⟨k, hk, hne⟩
    by_contra hnt
    have hf : hasSignificantDifferences d1 d2 = false := Bool.eq_false_iff.mpr hnt
    exact hne ((hasSignificantDifferences_eq_false_iff d1 d2).mp hf k hk)

lemma any_hasSignificantDifferences_iff {α : Type} [DecidableEq α]
    (cur : ConflictVersion α) (others : List (ConflictVersion α)) :
    (others.any (fun v => hasSignificantDifferences cur.data v.data) = true ↔
      ∃ c ∈ others, ∃ k, k ∉ ignoredConflictFields ∧
        lookupField cur.data k ≠ lookupField c.data k) ∧
    (others.any (fun v => hasSignificantDifferences cur.data v.data) = false ↔
      ∀ c ∈ others, ∀ k, k ∉ ignoredConflictFields →
        lookupField cur.data k = lookupField c.data k) := by
  constructor
  · rw [List.any_eq_true]
    constructor
    · rintro ⟨c, hc, hd⟩
      exact ⟨c, hc, (hasSignificantDifferences_eq_true_iff cur.data c.data).mp hd⟩
    · rintro ⟨c, hc, hk⟩
      exact ⟨c, hc, (hasSignificantDifferences_eq_true_iff cur.data c.data).mpr hk⟩
  · rw [List.any_eq_false]
    constructor
    · intro h c hc
      exact (hasSignificantDifferences_eq_false_iff cur.data c.data).mp
        (Bool.eq_false_iff.mpr (h c hc))
    · intro h c hc
      rw [(hasSignificantDifferences_eq_false_iff cur.data c.data).mpr (h c hc)]
      simp

/-- C3: with at least one conflicting revision, `analyzeConflictType`
classifies as `data_conflict` exactly when some conflicting revision differs
from the current one in a field outside the bookkeeping set
(`_rev`, `_conflicts`, `updatedAt`, `instanceMetadata`), and as
`revision_conflict` exactly when every conflicting revision agrees with the
current one on all non-bookkeeping fields. -/
theorem analyzeConflictType_classification :
    ∀ (α : Type) [_inst : DecidableEq α] (cur : ConflictVersion α)
      (confs : List (ConflictVersion α)), confs ≠ [] →
    (analyzeConflictType (cur :: confs) =
        ConflictAnalysis.analysis "data_conflict" (instancesInvolved (cur :: confs)) true
      ↔ ∃ c ∈ confs, ∃ k, k ∉ ignoredConflictFields ∧
          lookupField cur.data k ≠ lookupField c.data k) ∧
    (analyzeConflictType (cur :: confs) =
        ConflictAnalysis.analysis "revision_conflict" (instancesInvolved (cur :: confs)) false
      ↔ ∀ c ∈ confs, ∀ k, k ∉ ignoredConflictFields →
          lookupField cur.data k = lookupField c.data k) := by
  intro α _inst cur confs hne
  cases confs with
  | nil => exact absurd rfl hne
  | cons c1 cs =>
    cases hb : (c1 :: cs).any (fun v => hasSignificantDifferences cur.data v.data) with
    | false =>
      constructor
      · rw [← (any_hasSignificantDifferences_iff cur (c1 :: cs)).1]
        simp [analyzeConflictType, hb]
      · rw [← (any_hasSignificantDifferences_iff cur (c1 :: cs)).2]
        simp [analyzeConflictType, hb]
    | true =>
      constructor
      · rw [← (any_hasSignificantDifferences_iff cur (c1 :: cs)).1]
        simp [analyzeConflictType, hb]
      · rw [← (any_hasSignificantDifferences_iff cur (c1 :: cs)).2]
        simp [analyzeConflictType, hb]

/-- Witness for `analyzeConflictType_classification` at two concrete
two-revision sets, one with a domain difference and one without. -/
theorem analyzeConflictType_classification_witness :
    (([⟨"1-b", [("name", 2)], some "i2"⟩] : List (ConflictVersion Nat)) ≠ []) ∧
    (analyzeConflictType
        [(⟨"1-a", [("name", 1)], some "i1"⟩ : ConflictVersion Nat),
         ⟨"1-b", [("name", 2)], some "i2"⟩] =
        ConflictAnalysis.analysis "data_conflict"
          (instancesInvolved
            [(⟨"1-a", [("name", 1)], some "i1"⟩ : ConflictVersion Nat),
             ⟨"1-b", [("name", 2)], some "i2"⟩]) true
      ↔ ∃ c ∈ ([⟨"1-b", [("name", 2)], some "i2"⟩] : List (ConflictVersion Nat)),
          ∃ k, k ∉ ignoredConflictFields ∧
            lookupField [("name", 1)] k ≠ lookupField c.data k) :=
  ⟨by simp,
   ((analyzeConflictType_classification Nat
      (⟨"1-a", [("name", 1)], some "i1"⟩ : ConflictVersion Nat)
      [⟨"1-b", [("name", 2)], some "i2"⟩] (by simp)).1)⟩

lemma listCharLe_total : ∀ a b : List Char,
    listCharLe a b = true ∨ listCharLe b a = true := by
  intro a
  induction a with
  | nil => intro b; left; rfl
  | cons x xs ih =>
    intro b
    cases b with
    | nil => right; rfl
    | cons y ys =>
      rcases Nat.lt_trichotomy x.val.toNat y.val.toNat with h | h | h
      · left; simp [listCharLe, h]
      · rcases ih ys with h2 | h2
        · left; simp [listCharLe, h, h2]
        · right; simp [listCharLe, h, h2]
      · right; simp [listCharLe, h]

lemma listCharLe_trans : ∀ a b c : List Char, listCharLe a b = true →
    listCharLe b c = true → listCharLe a c = true := by
  intro a
  induction a with
  | nil => intro b c _ _; rfl
  | cons x xs ih =>
    intro b c hab hbc
    cases b with
    | nil => simp [listCharLe] at hab
    | cons y ys =>
      cases c with
      | nil => simp [listCharLe] at hbc
      | cons z zs =>
        simp only [listCharLe] at hab hbc ⊢
        split_ifs at hab hbc ⊢ <;>
          first
          | rfl
          | exact ih ys zs hab hbc
          | omega

lemma listCharLe_antisymm : ∀ a b : List Char, listCharLe a b = true →
    listCharLe b a = true → a = b := by
  intro a
  induction a with
  | nil =>
    intro b _ hba
    cases b with
    | nil => rfl
    | cons y ys => simp [listCharLe] at hba
  | cons x xs ih =>
    intro b hab hba
    cases b with
    | nil => simp [listCharLe] at hab
    | cons y ys =>
      simp only [listCharLe] at hab hba
      split_ifs at hab hba <;>
        first
        | (have hxy : x = y := Char.ext (UInt32.toNat.inj (by omega))
           rw [hxy, ih ys hab hba])
        | omega

lemma everyIndexEq_iff : ∀ xs ys : List String, xs.length = ys.length →
    (everyIndexEq xs ys = true ↔ xs = ys) := by
  intro xs
  induction xs with
  | nil =>
    intro ys h
    cases ys with
    | nil => simp [everyIndexEq]
    | cons y yt => simp at h
  | cons x xt ih =>
    intro ys h
    cases ys with
    | nil => simp at h
    | cons y yt =>
      have hiff := ih yt (by simpa using h)
      simp only [everyIndexEq, Bool.and_eq_true, beq_iff_eq]
      constructor
      · rintro ⟨h1, h2⟩
        rw [h1, hiff.mp h2]
      · intro he
        injection he with h1 h2
        exact ⟨h1, hiff.mpr h2⟩

lemma sortStrings_eq_iff_perm (a b : List String) :
    sortStrings a = sortStrings b ↔ List.Perm a b := by
  haveI : IsTotal String (fun a b => strLeB a b = true) :=
    ⟨fun a b => listCharLe_total a.data b.data⟩
  haveI : IsTrans String (fun a b => strLeB a b = true) :=
    ⟨fun a b c => listCharLe_trans a.data b.data c.data⟩
  haveI : IsAntisymm String (fun a b => strLeB a b = true) :=
    ⟨fun a b h1 h2 => by
      have h3 := listCharLe_antisymm a.data b.data h1 h2
      cases a
      cases b
      exact congrArg String.mk h3⟩
  constructor
  · intro h
    have pa : List.Perm (sortStrings a) a :=
      List.perm_insertionSort (fun a b => strLeB a b = true) a
    have pb : List.Perm (sortStrings b) b :=
      List.perm_insertionSort (fun a b => strLeB a b = true) b
    have hmid : List.Perm (sortStrings a) (sortStrings b) := by
      rw [h]
    exact (pa.symm.trans hmid).trans pb
  · intro h
    apply List.eq_of_perm_of_sorted
      ((List.perm_insertionSort _ a).trans
        (h.trans (List.perm_insertionSort _ b).symm))
      (List.sorted_insertionSort _ a) (List.sorted_insertionSort _ b)

lemma arraysEqual_eq_true_iff (a b : List String) :
    arraysEqual a b = true ↔ List.Perm a b := by
  by_cases h : a.length = b.length
  · have h1 : (sortStrings a).length = a.length :=
      (List.perm_insertionSort (fun a b => strLeB a b = true) a).length_eq
    have h2 : (sortStrings b).length = b.length :=
      (List.perm_insertionSort (fun a b => strLeB a b = true) b).length_eq
    have hl : (sortStrings a).length = (sortStrings b).length := by
      rw [h1, h2]; exact h
    have hcond : (a.length == b.length) = true := by simpa using h
    rw [arraysEqual, hcond, if_pos rfl, everyIndexEq_iff _ _ hl]
    exact sortStrings_eq_iff_perm a b
  · constructor
    · intro hfalse
      have hb : (a.length == b.length) = false := by simpa using h
      rw [arraysEqual, hb, if_neg (by simp : ¬ (false = true))] at hfalse
      exact absurd hfalse (by simp)
    · intro hp
      exact absurd hp.length_eq h

/-- C10: `arraysEqual` returns true exactly when the two arrays are
permutations of each other (equal sorted contents), so user revisions whose
`groups` or `roles` hold the same elements in a different order are not
flagged as a groups or roles conflict by `analyzeUserConflictType`. -/
theorem arraysEqual_permutation :
    (∀ a b : List String, arraysEqual a b = true ↔ List.Perm a b) ∧
    (∀ (base v1 : UserVersion) (rest : List UserVersion),
      (∀ v ∈ v1 :: rest,
        List.Perm v.groups base.groups ∧ List.Perm v.roles base.roles) →
      ∃ flags, analyzeUserConflictType (base :: v1 :: rest) =
          UserConflictType.fields flags ∧
        flags.groups = false ∧ flags.roles = false) := by
  constructor
  · exact arraysEqual_eq_true_iff
  · intro base v1 rest h
    refine ⟨_, rfl, ?_, ?_⟩
    · rw [List.any_eq_false]
      intro v hv
      have := (arraysEqual_eq_true_iff base.groups v.groups).mpr (h v hv).1.symm
      simp [this]
    · rw [List.any_eq_false]
      intro v hv
      have := (arraysEqual_eq_true_iff base.roles v.roles).mpr (h v hv).2.symm
      simp [this]

/-- Witness for `arraysEqual_permutation` at concrete inputs. -/
theorem arraysEqual_permutation_witness :
    (arraysEqual ["admins", "users"] ["users", "admins"] = true ↔
      List.Perm ["admins", "users"] ["users", "admins"]) ∧
    ((∀ v ∈ [exUserV2],
        List.Perm v.groups exUserV1.groups ∧ List.Perm v.roles exUserV1.roles) ∧
      ∃ flags, analyzeUserConflictType [exUserV1, exUserV2] =
          UserConflictType.fields flags ∧
        flags.groups = false ∧ flags.roles = false) :=
  ⟨arraysEqual_permutation.1 ["admins", "users"] ["users", "admins"],
   ⟨by decide, arraysEqual_permutation.2 exUserV1 exUserV2 [] (by decide)⟩⟩

lemma extract_isHealthy (localId : String) (ph : String → Option String)
    (r : Replication) (pinfo : PeerInfo)
    (h : extractPeerInfoFromReplication localId ph r = some pinfo) :
    pinfo.isHealthy = (r.state == "running" || r.state == "triggered") := by
  simp only [extractPeerInfoFromReplication] at h
  split at h
  · exact absurd h (by simp)
  · split at h
    · exact absurd h (by simp)
    · injection h with h2
      rw [← h2]

lemma getLast?_cons_of_ne_nil {γ : Type} (x : γ) (l : List γ) (h : l ≠ []) :
    (x :: l).getLast? = l.getLast? := by
  cases l with
  | nil => exact absurd rfl h
  | cons y ys => rfl

lemma peerLinks_cons (localId : String) (ph : String → Option String)
    (r : Replication) (rest : List Replication) (pid : String) :
    peerLinks localId ph (r :: rest) pid =
      (match extractPeerInfoFromReplication localId ph r with
       | some pinfo =>
         if pinfo.peerId == pid then pinfo :: peerLinks localId ph rest pid
         else peerLinks localId ph rest pid
       | none => peerLinks localId ph rest pid) := by
  cases hx : extractPeerInfoFromReplication localId ph r with
  | none => simp [peerLinks, List.filterMap_cons, hx]
  | some pinfo =>
    by_cases hpid : (pinfo.peerId == pid) = true
    · simp [peerLinks, List.filterMap_cons, hx, List.filter_cons, hpid]
    · have : (pinfo.peerId == pid) = false := by simpa using hpid
      simp [peerLinks, List.filterMap_cons, hx, List.filter_cons, this]

lemma applyReplicationLink_id (now : String) (r : Replication) (pinfo : PeerInfo)
    (e : InstanceEntry) : (applyReplicationLink now r pinfo e).id = e.id := by
  simp only [applyReplicationLink]
  split_ifs <;> rfl

lemma applyReplicationLink_isCurrent (now : String) (r : Replication)
    (pinfo : PeerInfo) (e : InstanceEntry) :
    (applyReplicationLink now r pinfo e).isCurrentInstance = e.isCurrentInstance := by
  simp only [applyReplicationLink]
  split_ifs <;> rfl

lemma applyReplicationLink_status (now : String) (r : Replication)
    (pinfo : PeerInfo) (e : InstanceEntry) :
    (applyReplicationLink now r pinfo e).status =
      if pinfo.isHealthy then "active"
      else if e.status == "active" then "unreachable" else e.status := by
  by_cases hh : pinfo.isHealthy <;> by_cases hs : (e.status == "active") = true <;>
    simp_all [applyReplicationLink]

lemma mem_stepReplication_cases (localId : String) (ph : String → Option String)
    (now : String) (acc : List InstanceEntry) (r : Replication) (e : InstanceEntry)
    (he : e ∈ stepReplication localId ph now acc r) :
    (extractPeerInfoFromReplication localId ph r = none ∧ e ∈ acc) ∨
    (∃ pinfo e0, extractPeerInfoFromReplication localId ph r = some pinfo ∧
      (e0 ∈ acc ∨ e0 = newPeerEntry r pinfo) ∧
      (((e0.id == pinfo.peerId) = true ∧ e = applyReplicationLink now r pinfo e0) ∨
       ((e0.id == pinfo.peerId) = false ∧ e = e0))) := by
  unfold stepReplication at he
  cases hx : extractPeerInfoFromReplication localId ph r with
  | none =>
    rw [hx] at he
    exact Or.inl ⟨rfl, he⟩
  | some pinfo =>
    rw [hx] at he
    right
    simp only [setInstance, List.mem_map] at he
    obtain ⟨e0, he0, heq⟩ := he
    refine ⟨pinfo, e0, rfl, ?_, ?_⟩
    · by_cases hhas : hasInstance acc pinfo.peerId = true
      · rw [if_pos hhas] at he0
        exact Or.inl he0
      · rw [if_neg hhas] at he0
        rcases List.mem_append.mp he0 with h | h
        · exact Or.inl h
        · exact Or.inr (by simpa using h)
    · by_cases hid : (e0.id == pinfo.peerId) = true
      · exact Or.inl ⟨hid, by rw [← heq, if_pos hid]⟩
      · refine Or.inr ⟨by simpa using hid, ?_⟩
        rw [← heq, if_neg hid]

lemma WF_stepReplication (localId : String) (ph : String → Option String)
    (now : String) (acc : List InstanceEntry) (r : Replication)
    (hwf : ∀ e ∈ acc, e.isCurrentInstance = false →
      e.status = "active" ∨ e.status = "unreachable") :
    ∀ e ∈ stepReplication localId ph now acc r, e.isCurrentInstance = false →
      e.status = "active" ∨ e.status = "unreachable" := by
  intro e he hnc
  rcases mem_stepReplication_cases localId ph now acc r e he with
    ⟨_, hin⟩ | ⟨pinfo, e0, _, h0, hcase⟩
  · exact hwf e hin hnc
  · have h0wf : e0.isCurrentInstance = false →
        e0.status = "active" ∨ e0.status = "unreachable" := by
      rcases h0 with hin | hnew
      · exact hwf e0 hin
      · intro _
        rw [hnew]
        by_cases hh : pinfo.isHealthy <;> simp [newPeerEntry, hh]
    rcases hcase with ⟨_, happ⟩ | ⟨_, heq⟩
    · have hnc0 : e0.isCurrentInstance = false := by
        rw [happ, applyReplicationLink_isCurrent] at hnc
        exact hnc
      rw [happ, applyReplicationLink_status]
      by_cases hh : pinfo.isHealthy
      · simp [hh]
      · rcases h0wf hnc0 with hs | hs <;> simp [hh, hs]
    · rw [heq]
      rw [heq] at hnc
      exact h0wf hnc

lemma mem_stepReplication_status (localId : String) (ph : String → Option String)
    (now : String) (acc : List InstanceEntry) (r : Replication) (e : InstanceEntry)
    (pinfo : PeerInfo)
    (hwf : ∀ e1 ∈ acc, e1.isCurrentInstance = false →
      e1.status = "active" ∨ e1.status = "unreachable")
    (he : e ∈ stepReplication localId ph now acc r)
    (hnc : e.isCurrentInstance = false)
    (hx : extractPeerInfoFromReplication localId ph r = some pinfo)
    (hid : pinfo.peerId = e.id) :
    e.status = (if pinfo.isHealthy then "active" else "unreachable") := by
  rcases mem_stepReplication_cases localId ph now acc r e he with
    ⟨hnone, _⟩ | ⟨pinfo2, e0, hx2, h0, hcase⟩
  · rw [hx] at hnone
    exact absurd hnone (by simp)
  · rw [hx] at hx2
    injection hx2 with hx2
    subst hx2
    have h0wf : e0.isCurrentInstance = false →
        e0.status = "active" ∨ e0.status = "unreachable" := by
      rcases h0 with hin | hnew
      · exact hwf e0 hin
      · intro _
        rw [hnew]
        by_cases hh : pinfo.isHealthy <;> simp [newPeerEntry, hh]
    rcases hcase with ⟨_, happ⟩ | ⟨hne, heq⟩
    · have hnc0 : e0.isCurrentInstance = false := by
        rw [happ, applyReplicationLink_isCurrent] at hnc
        exact hnc
      rw [happ, applyReplicationLink_status]
      by_cases hh : pinfo.isHealthy
      · simp [hh]
      · rcases h0wf hnc0 with hs | hs <;> simp [hh, hs]
    · exfalso
      have : e0.id = pinfo.peerId := by rw [heq] at hid; exact hid.symm
      rw [this] at hne
      simp at hne

lemma foldl_stepReplication_status (localId : String)
    (ph : String → Option String) (now : String) :
    ∀ (reps : List Replication) (acc : List InstanceEntry),
    (∀ e ∈ acc, e.isCurrentInstance = false →
      e.status = "active" ∨ e.status = "unreachable") →
    ∀ e ∈ reps.foldl (stepReplication localId ph now) acc,
      e.isCurrentInstance = false →
      (match (peerLinks localId ph reps e.id).getLast? with
       | some pinfo => e.status = (if pinfo.isHealthy then "active" else "unreachable")
       | none => e ∈ acc) := by
  intro reps
  induction reps with
  | nil =>
    intro acc _ e he hnc
    simpa [peerLinks] using he
  | cons r rest ih =>
    intro acc hwf e he hnc
    rw [List.foldl_cons] at he
    have hwf2 := WF_stepReplication localId ph now acc r hwf
    have hIH := ih (stepReplication localId ph now acc r) hwf2 e he hnc
    rw [peerLinks_cons]
    cases hx : extractPeerInfoFromReplication localId ph r with
    | none =>
      dsimp only
      rcases hmatch : (peerLinks localId ph rest e.id).getLast? with _ | pinfo
      · rw [hmatch] at hIH
        rcases mem_stepReplication_cases localId ph now acc r e hIH with
          ⟨_, hin⟩ | ⟨pinfo2, e0, hx2, _, _⟩
        · exact hin
        · rw [hx] at hx2
          exact absurd hx2 (by simp)
      · rw [hmatch] at hIH
        exact hIH
    | some pinfo =>
      dsimp only
      by_cases hpid : (pinfo.peerId == e.id) = true
      · rw [if_pos hpid]
        rcases hmatch : (peerLinks localId ph rest e.id).getLast? with _ | pj
        · have hnil : peerLinks localId ph rest e.id = [] := by
            cases hl : peerLinks localId ph rest e.id with
            | nil => rfl
            | cons a as =>
              rw [hl] at hmatch
              simp [List.getLast?] at hmatch
          rw [hnil]
          simp only [List.getLast?_singleton]
          rw [hmatch] at hIH
          exact mem_stepReplication_status localId ph now acc r e pinfo hwf hIH hnc hx
            (by simpa using hpid)
        · have hne : peerLinks localId ph rest e.id ≠ [] := by
            intro hc
            rw [hc] at hmatch
            simp at hmatch
          rw [getLast?_cons_of_ne_nil pinfo _ hne, hmatch]
          rw [hmatch] at hIH
          exact hIH
      · rw [if_neg hpid]
        rcases hmatch : (peerLinks localId ph rest e.id).getLast? with _ | pj
        · rw [hmatch] at hIH
          rcases mem_stepReplication_cases localId ph now acc r e hIH with
            ⟨_, hin⟩ | ⟨pinfo2, e0, hx2, h0, hcase⟩
          · exact hin
          · rw [hx] at hx2
            injection hx2 with hx2
            subst hx2
            rcases hcase with ⟨hideq, happ⟩ | ⟨_, heq⟩
            · exfalso
              have hid0 : e0.id = pinfo.peerId := by simpa using hideq
              have heid : e.id = e0.id := by rw [happ, applyReplicationLink_id]
              exact hpid (by simp [heid, hid0])
            · rcases h0 with hin | hnew
              · rw [heq]; exact hin
              · exfalso
                have heid : e.id = pinfo.peerId := by
                  rw [heq, hnew]; rfl
                exact hpid (by simp [heid])
        · rw [hmatch] at hIH
          exact hIH

lemma mem_sortInstances (e : InstanceEntry) (l : List InstanceEntry) :
    e ∈ sortInstances l ↔ e ∈ l := by
  simp only [sortInstances, List.mem_append, List.mem_insertionSort,
    List.mem_filter]
  by_cases hc : e.isCurrentInstance <;> simp [hc]

/-- C1 (amended): a replication link is classified healthy exactly when its
state is `running` or `triggered` (`completed`, `retrying`, `error` and
`failed` are all unhealthy), and a non-local peer's reported status follows
the health of the *last* of its links processed: it is `active` iff that last
link is healthy, regardless of earlier links. -/
theorem instanceMonitor_link_health_classification :
    (∀ (localId : String) (ph : String → Option String) (r : Replication)
       (pinfo : PeerInfo),
      extractPeerInfoFromReplication localId ph r = some pinfo →
      pinfo.isHealthy = (r.state == "running" || r.state == "triggered")) ∧
    (∀ (localId location now : String) (ph : String → Option String)
       (reps : List Replication) (e : InstanceEntry),
      e ∈ (getInstanceStatusOk localId location now ph reps).instances →
      e.isCurrentInstance = false →
      (peerLinks localId ph reps e.id).getLast?.map PeerInfo.isHealthy =
        some (e.status == "active")) := by
  constructor
  · exact extract_isHealthy
  · intro localId location now ph reps e he hnc
    have hmem : e ∈ reps.foldl (stepReplication localId ph now)
        [localInstanceEntry localId location now] := by
      rw [getInstanceStatusOk] at he
      exact (mem_sortInstances e _).mp he
    have hwf0 : ∀ e1 ∈ [localInstanceEntry localId location now],
        e1.isCurrentInstance = false →
        e1.status = "active" ∨ e1.status = "unreachable" := by
      intro e1 he1 hnc1
      rw [List.mem_singleton] at he1
      rw [he1] at hnc1
      exact absurd hnc1 (by simp [localInstanceEntry])
    have hinv := foldl_stepReplication_status localId ph now reps
      [localInstanceEntry localId location now] hwf0 e hmem hnc
    rcases hmatch : (peerLinks localId ph reps e.id).getLast? with _ | pinfo
    · rw [hmatch] at hinv
      rw [List.mem_singleton] at hinv
      rw [hinv] at hnc
      exact absurd hnc (by simp [localInstanceEntry])
    · rw [hmatch] at hinv
      rw [Option.map_some', hinv]
      by_cases hh : pinfo.isHealthy <;> simp [hh]

/-- C1 counterexample: peer `p2` carries a link in state `running` — healthy
by the claim's rule and by the code's — yet `getInstanceStatus` reports `p2`
as `unreachable` because its later link is unhealthy, refuting "active iff at
least one healthy link"; moreover a `completed` link is classified unhealthy
by the code although the claim calls it healthy. -/
theorem instanceMonitor_claimed_classification_counterexample :
    (((getInstanceStatusOk "i1" "L" "T" noHost [exRep1, exRep2]).instances.filter
        (fun e => e.id == "p2")).map (fun e => e.status) = ["unreachable"]) ∧
    (([exRep1, exRep2].filter (fun r => specLinkHealthy r.state)).length = 1) ∧
    (specLinkHealthy "completed" = true) ∧
    ((extractPeerInfoFromReplication "i1" noHost exRepC).map PeerInfo.isHealthy =
      some false) :=
  ⟨by decide, by decide, by decide, by decide⟩

/-- Witness for `instanceMonitor_link_health_classification` at concrete
links. -/
theorem instanceMonitor_link_health_classification_witness :
    (extractPeerInfoFromReplication "i1" noHost exRep1 =
        some ⟨"p2", "unknown", "outbound", true⟩ ∧
      (⟨"p2", "unknown", "outbound", true⟩ : PeerInfo).isHealthy =
        (exRep1.state == "running" || exRep1.state == "triggered")) ∧
    (exPeerEntry ∈ (getInstanceStatusOk "i1" "L" "T" noHost
        [exRep1, exRep2]).instances ∧
      exPeerEntry.isCurrentInstance = false ∧
      (peerLinks "i1" noHost [exRep1, exRep2] exPeerEntry.id).getLast?.map
          PeerInfo.isHealthy = some (exPeerEntry.status == "active")) :=
  ⟨⟨by decide,
    instanceMonitor_link_health_classification.1 "i1" noHost exRep1
      ⟨"p2", "unknown", "outbound", true⟩ (by decide)⟩,
   ⟨by decide, by decide,
    instanceMonitor_link_health_classification.2 "i1" "L" "T" noHost
      [exRep1, exRep2] exPeerEntry (by decide) (by decide)⟩⟩

end ZombieUI
